import Mathlib

/-!
Verification of the tinet-bridge relay core (src/tinet-bridge.py).

The Python program bridges a serial device and a TCP socket with two
threads, `SerialThread` and `SocketThread`, each forwarding decoded data to
the other.  This file gives a shallow embedding of the relevant code: byte
strings are `List Nat` (each element < 256 in practice), Python strings are
lists of Unicode codepoints (`List Nat`), `bytes.decode('utf-8')` and
`str.encode()` are an explicit strict UTF-8 codec, and the mutable
cross-thread state (the `alive` flags, the socket handle, and the sequences
of byte strings handed to `serial.write` and `socket.send`) is threaded
explicitly through the loop-body functions.
-/

namespace TinetBridge

/-- Errors the embedded code can raise, mirroring the Python exceptions:
`RuntimeError` from `threading.Thread.join` when a thread joins itself,
`UnicodeDecodeError` from `bytes.decode()`, and `AttributeError` from
calling `.send` on a socket attribute that is still `None`. -/
inductive PyError
  | joinCurrentThread
  | unicodeDecodeError
  | noneHasNoSend
deriving DecidableEq, Repr

/-- UTF-8 encoding of one Unicode codepoint (`str.encode()` for a single
character). -/
def utf8EncodeChar (c : Nat) : List Nat :=
  if c < 0x80 then [c]
  else if c < 0x800 then [0xC0 + c / 64, 0x80 + c % 64]
  else if c < 0x10000 then [0xE0 + c / 4096, 0x80 + c / 64 % 64, 0x80 + c % 64]
  else [0xF0 + c / 262144, 0x80 + c / 4096 % 64, 0x80 + c / 64 % 64, 0x80 + c % 64]

/-- `str.encode()`: UTF-8 encoding of a list of codepoints. -/
def utf8Encode : List Nat → List Nat
  | [] => []
  | c :: s => utf8EncodeChar c ++ utf8Encode s

/-- Is `b` a UTF-8 continuation byte (`0x80..0xBF`)? -/
def isCont (b : Nat) : Bool :=
  decide (0x80 ≤ b) && decide (b < 0xC0)

/-- Decode one UTF-8-encoded codepoint from the front of a byte list,
returning the codepoint and the remaining bytes.  Like Python's strict
decoder it rejects stray continuation bytes, overlong forms, surrogates and
codepoints beyond `0x10FFFF`. -/
def utf8Step (l : List Nat) : Option (Nat × List Nat) :=
  match l with
  | [] => none
  | b :: rest =>
    if b < 0x80 then some (b, rest)
    else if b < 0xC2 then none
    else if b < 0xE0 then
      match rest with
      | b1 :: r => if isCont b1 then some ((b - 0xC0) * 64 + (b1 - 0x80), r) else none
      | [] => none
    else if b < 0xF0 then
      match rest with
      | b1 :: b2 :: r =>
        if isCont b1 && isCont b2 then
          let c := (b - 0xE0) * 4096 + (b1 - 0x80) * 64 + (b2 - 0x80)
          if c < 0x800 then none
          else if 0xD800 ≤ c && c < 0xE000 then none
          else some (c, r)
        else none
      | _ => none
    else if b < 0xF5 then
      match rest with
      | b1 :: b2 :: b3 :: r =>
        if isCont b1 && isCont b2 && isCont b3 then
          let c := (b - 0xF0) * 262144 + (b1 - 0x80) * 4096 + (b2 - 0x80) * 64 + (b3 - 0x80)
          if c < 0x10000 then none
          else if 0x10FFFF < c then none
          else some (c, r)
        else none
      | _ => none
    else none

/-- Fueled driver for the decoder; `utf8Step` consumes at least one byte per
codepoint, so fuel `l.length` always suffices (`utf8DecodeFuel_fuel_irrel`
below makes the fuel irrelevance precise). -/
def utf8DecodeFuel : Nat → List Nat → Option (List Nat)
  | _, [] => some []
  | 0, _ :: _ => none
  | n + 1, b :: rest =>
    match utf8Step (b :: rest) with
    | none => none
    | some (c, r) => (utf8DecodeFuel n r).map (c :: ·)

/-- `bytes.decode('utf-8')` with Python's strict error handling; `none` where
Python raises `UnicodeDecodeError`. -/
def utf8Decode (l : List Nat) : Option (List Nat) :=
  utf8DecodeFuel l.length l

/-- `str.replace("/0", "")` (line 183): drop every left-to-right
non-overlapping occurrence of the two-codepoint sequence `/0`
(codepoints 47, 48). -/
def stripSlashZero : List Nat → List Nat
  | [] => []
  | [c] => [c]
  | c :: d :: s =>
    if c = 47 ∧ d = 48 then stripSlashZero s
    else c :: stripSlashZero (d :: s)

/-- `str.replace("\0", "")` (line 183): drop every NUL codepoint. -/
def stripNull : List Nat → List Nat
  | [] => []
  | c :: s => if c = 0 then stripNull s else c :: stripNull s

/-- Does the codepoint (or byte) list contain 47 followed immediately
by 48, i.e. the text `/0`? -/
def hasSlashZero : List Nat → Bool
  | [] => false
  | [_] => false
  | c :: d :: s => (decide (c = 47) && decide (d = 48)) || hasSlashZero (d :: s)

/-- Combined cross-thread state of the two channel objects: the `alive`
flags, whether `SocketThread.socket` has been assigned (it is `None` from
the constructor, line 57, until line 75), whether it has been closed,
whether the serial port object is open, and the ordered lists of byte
strings passed to `serial.write` and to `socket.send`. -/
structure BridgeState where
  socketAlive : Bool
  serialAlive : Bool
  socketHandle : Bool
  socketClosed : Bool
  serialOpen : Bool
  serialWrites : List (List Nat)
  socketWrites : List (List Nat)
deriving DecidableEq, Repr

/-- Codepoints of the text internetDisconnected (pure ASCII). -/
def internetDisconnectedCodes : List Nat :=
  [105, 110, 116, 101, 114, 110, 101, 116, 68, 105, 115, 99, 111, 110, 110, 101, 99, 116, 101, 100]

/-- The bytes sent at line 65: the encoding of internetDisconnected. -/
def internetDisconnectedFrame : List Nat := utf8Encode internetDisconnectedCodes

/-- Codepoints of the text bridgeConnected followed by the NUL delimiter. -/
def bridgeConnectedCodes : List Nat :=
  [98, 114, 105, 100, 103, 101, 67, 111, 110, 110, 101, 99, 116, 101, 100, 0]

/-- The handshake bytes sent at lines 85 and 170. -/
def bridgeConnectedFrame : List Nat := utf8Encode bridgeConnectedCodes

/-- Codepoints of the control text DISCONNECT (line 113). -/
def disconnectCodes : List Nat := [68, 73, 83, 67, 79, 78, 78, 69, 67, 84]

/-- `SerialThread.write` (lines 194-197): under the lock,
`self.serial.write(data)`, returning the byte count.  There is no check of
the `alive` flag; the port object exists from the constructor on. -/
def serialWrite (st : BridgeState) (data : List Nat) : BridgeState × Nat :=
  ({ st with serialWrites := st.serialWrites ++ [data] }, data.length)

/-- `SocketThread.write` (lines 116-119): under the lock,
`self.socket.send(data)`.  There is no check of the `alive` flag; if `run()`
has not yet created the socket (line 75), `self.socket` is `None` and
`.send` raises `AttributeError`. -/
def socketWrite (st : BridgeState) (data : List Nat) : BridgeState × Except PyError Nat :=
  if st.socketHandle then
    ({ st with socketWrites := st.socketWrites ++ [data] }, .ok data.length)
  else (st, .error .noneHasNoSend)

/-- `SocketThread.stop` (lines 61-69): set `alive = False`; if the serial
peer's `alive` flag is set, write the internetDisconnected frame to it via
the peer's `write`; close the socket; `join()` the thread.
`threading.Thread.join` raises `RuntimeError` when a thread attempts to
join itself, which is what happens whenever `stop()` is invoked from inside
`SocketThread.run` (lines 96 and 100), so the returned error is present
exactly when the call comes from the thread's own loop. -/
def socketStop (fromOwnThread : Bool) (st : BridgeState) : BridgeState × Option PyError :=
  let st1 := { st with socketAlive := false }
  let st2 := if st1.serialAlive then (serialWrite st1 internetDisconnectedFrame).1 else st1
  let st3 := { st2 with socketClosed := true }
  (st3, if fromOwnThread then some .joinCurrentThread else none)

/-- `SerialThread.stop` (lines 144-149): set `alive = False`, cancel any
blocking read, join with a 2 second timeout.  No frame is written and no
other state changes. -/
def serialStop (st : BridgeState) : BridgeState :=
  { st with serialAlive := false }

/-- Loop guard of `SocketThread.run` (line 88): `while self.alive`. -/
def socketLoopGuard (st : BridgeState) : Bool := st.socketAlive

/-- Loop guard of `SerialThread.run` (line 154):
`while self.alive and self.serial.is_open`. -/
def serialLoopGuard (st : BridgeState) : Bool := st.serialAlive && st.serialOpen

/-- Outcome of `socket.recv(4096)` at line 91: a timeout exception, another
exception, or a byte string (empty when the peer closed the connection). -/
inductive RecvEvent
  | timeout
  | ioError
  | bytes (bs : List Nat)

/-- How one pass of a read-loop body ends: fall through to the next guard
check, or terminate the thread with an uncaught exception. -/
inductive IterOutcome
  | next
  | raised (e : PyError)
deriving DecidableEq, Repr

/-- One pass of `SocketThread.run`'s read loop body (lines 88-114).
`timeout` hits the `continue` at line 93.  `ioError` reaches `self.stop()`
at line 96, whose self-`join()` raises out of the loop.  Empty bytes reach
`self.stop()` at line 100, likewise.  Non-empty bytes are decoded at
line 101 (an invalid sequence raises `UnicodeDecodeError`, uncaught because
the `try` only wraps the `recv`); the decoded text is forwarded to the
serial peer's `write` when that peer is alive (lines 108-109); the value
DISCONNECT then clears `alive` (lines 113-114). -/
def socketLoopIter (st : BridgeState) (r : RecvEvent) : BridgeState × IterOutcome :=
  match r with
  | .timeout => (st, .next)
  | .ioError => ((socketStop true st).1, .raised .joinCurrentThread)
  | .bytes bs =>
    if bs = [] then ((socketStop true st).1, .raised .joinCurrentThread)
    else
      match utf8Decode bs with
      | none => (st, .raised .unicodeDecodeError)
      | some s =>
        let st1 := if st.serialAlive then (serialWrite st (utf8Encode s)).1 else st
        if s = disconnectCodes then ({ st1 with socketAlive := false }, .next)
        else (st1, .next)

/-- The else-branch of one pass of `SerialThread.run`'s read loop (lines
178-190), handling the bytes returned by `serial.read`.  Empty data skips
the body (line 179).  The decode at line 183 happens outside the
`try`/`except` (it is in the `else` clause), so `UnicodeDecodeError`
propagates and kills the thread.  Line 189 forwards the stripped, re-encoded
text to the socket peer's `write` unconditionally: neither the peer's
`alive` flag nor the existence of its socket handle is checked. -/
def serialLoopData (st : BridgeState) (data : List Nat) : BridgeState × IterOutcome :=
  if data = [] then (st, .next)
  else
    match utf8Decode data with
    | none => (st, .raised .unicodeDecodeError)
    | some s =>
      match socketWrite st (utf8Encode (stripNull (stripSlashZero s))) with
      | (st1, .ok _) => (st1, .next)
      | (st1, .error e) => (st1, .raised e)

/-- Events observable from the serial thread's reconnect path. -/
inductive SerialEvent
  | sleepOne
  | portDiscovery
  | openPort
  | sendSerial (bs : List Nat)
deriving DecidableEq, Repr

/-- Configuration constant `MANUAL_PORT` (line 22). -/
def MANUAL_PORT : Bool := false

/-- Events of one pass of the reconnect retry-loop body (lines 163-170):
`time.sleep(1)`, then port discovery via `find_serial_port()` (unless
`MANUAL_PORT`), then opening the port. -/
def attemptEvents : List SerialEvent :=
  .sleepOne :: (if MANUAL_PORT then [.openPort] else [.portDiscovery, .openPort])

/-- The unbounded reconnect retry loop (lines 163-174).  Each `Bool` in
`attempts` is whether that pass's reopen-plus-handshake succeeds (any
exception is swallowed by the `except: pass` and the loop retries).  On the
first success the bridgeConnected frame is written through `self.write` and
the loop breaks.  Returns the emitted events and whether the loop has
terminated within the supplied passes. -/
def reconnectLoop : List Bool → List SerialEvent × Bool
  | [] => ([], false)
  | ok :: rest =>
    if ok then (attemptEvents ++ [.sendSerial bridgeConnectedFrame], true)
    else
      let r := reconnectLoop rest
      (attemptEvents ++ r.1, r.2)

/-- The except-branch of `SerialThread.run` (lines 158-177): with
`ENABLE_RECONNECT` the reconnect loop runs (on success the port is open
again and the bridgeConnected frame has been written to the serial medium);
without it, `alive` is set `False` and the read loop exits.  The third
component is whether the read loop resumes. -/
def serialHandleError (enableReconnect : Bool) (attempts : List Bool) (st : BridgeState) :
    BridgeState × List SerialEvent × Bool :=
  if enableReconnect then
    let r := reconnectLoop attempts
    (if r.2 then
       { st with serialOpen := true,
                 serialWrites := st.serialWrites ++ [bridgeConnectedFrame] }
     else st, r.1, r.2)
  else ({ st with serialAlive := false }, [], false)

/-- The timeout installed on the socket at line 78
(`self.socket.settimeout(10)`).  It is never changed afterwards, so the same
10 time-unit bound governs every `socket.recv` in the read loop. -/
def socketRecvTimeout : ℚ := 10

/-- Program counter of `SocketThread.run`'s startup phase. -/
inductive SockPC
  | waitPeer
  | setup
  | handshake
  | inLoop
deriving DecidableEq, Repr

/-- Startup-interleaving state: where `SocketThread.run` is (`waitPeer` is
the busy wait of lines 72-73, `setup` is lines 75-83, `handshake` is the
first serial write at line 85), whether the main thread has published the
peer reference (line 325), and whether the first write has happened. -/
structure StartState where
  pc : SockPC
  peerPublished : Bool
  handshakeSent : Bool
deriving DecidableEq, Repr

/-- Interleaved small steps of the main thread and `SocketThread.run` during
startup.  `publish` is the main thread assigning
`socket_thread.serial_manager` (line 325); it is never unassigned.  `spin`
is one idle pass of the busy wait while the reference is still `None`;
`exitWait` leaves the busy wait, which requires the reference to be
published; `finishSetup` covers socket creation and connect (lines 75-83);
`doHandshake` performs the first write to the serial peer (line 85). -/
inductive StartStep : StartState → StartState → Prop
  | publish (s : StartState) (h : s.peerPublished = false) :
      StartStep s { s with peerPublished := true }
  | spin (s : StartState) (h : s.pc = .waitPeer) (hp : s.peerPublished = false) : StartStep s s
  | exitWait (s : StartState) (h : s.pc = .waitPeer) (hp : s.peerPublished = true) :
      StartStep s { s with pc := .setup }
  | finishSetup (s : StartState) (h : s.pc = .setup) : StartStep s { s with pc := .handshake }
  | doHandshake (s : StartState) (h : s.pc = .handshake) :
      StartStep s { s with pc := .inLoop, handshakeSent := true }

/-- Reflexive-transitive closure of `StartStep`. -/
inductive StartReach : StartState → StartState → Prop
  | refl (s : StartState) : StartReach s s
  | tail {s t u : StartState} : StartReach s t → StartStep t u → StartReach s u

/-- An initial startup state: the socket thread is at its busy wait and has
not yet written anything; the peer reference may or may not have been
published yet. -/
def startInit (s : StartState) : Prop :=
  s.pc = .waitPeer ∧ s.handshakeSent = false

/-- State right after a successful startup: both channels alive, the socket
handle created, nothing written yet. -/
def stInit : BridgeState :=
  { socketAlive := true, serialAlive := true, socketHandle := true, socketClosed := false,
    serialOpen := true, serialWrites := [], socketWrites := [] }

/-- State while `SocketThread.run` has not yet created the TCP socket: the
socket attribute is still `None` (line 57) and the thread not yet alive. -/
def stNoSocket : BridgeState :=
  { socketAlive := false, serialAlive := true, socketHandle := false, socketClosed := false,
    serialOpen := true, serialWrites := [], socketWrites := [] }

end TinetBridge

namespace TinetBridge

theorem encodeChar_two (b b1 : Nat) (hb : 194 ≤ b) (hb' : b < 224)
    (h1 : 128 ≤ b1) (h1' : b1 < 192) :
    utf8EncodeChar ((b - 192) * 64 + (b1 - 128)) = [b, b1] := by
  unfold utf8EncodeChar
  rw [if_neg (by omega), if_pos (by omega)]
  have e1 : ((b - 192) * 64 + (b1 - 128)) / 64 = b - 192 := by omega
  have e2 : ((b - 192) * 64 + (b1 - 128)) % 64 = b1 - 128 := by omega
  rw [e1, e2]
  simp only [List.cons.injEq, and_true]
  exact ⟨by omega, by omega⟩

theorem encodeChar_three (b b1 b2 : Nat) (hb : 224 ≤ b) (hb' : b < 240)
    (h1 : 128 ≤ b1) (h1' : b1 < 192) (h2 : 128 ≤ b2) (h2' : b2 < 192)
    (hmin : 2048 ≤ (b - 224) * 4096 + (b1 - 128) * 64 + (b2 - 128)) :
    utf8EncodeChar ((b - 224) * 4096 + (b1 - 128) * 64 + (b2 - 128)) = [b, b1, b2] := by
  unfold utf8EncodeChar
  rw [if_neg (by omega), if_neg (by omega), if_pos (by omega)]
  have e1 : ((b - 224) * 4096 + (b1 - 128) * 64 + (b2 - 128)) / 4096 = b - 224 := by omega
  have e2 : ((b - 224) * 4096 + (b1 - 128) * 64 + (b2 - 128)) / 64 % 64 = b1 - 128 := by omega
  have e3 : ((b - 224) * 4096 + (b1 - 128) * 64 + (b2 - 128)) % 64 = b2 - 128 := by omega
  rw [e1, e2, e3]
  simp only [List.cons.injEq, and_true]
  exact ⟨by omega, by omega, by omega⟩

theorem encodeChar_four (b b1 b2 b3 : Nat) (hb : 240 ≤ b) (hb' : b < 245)
    (h1 : 128 ≤ b1) (h1' : b1 < 192) (h2 : 128 ≤ b2) (h2' : b2 < 192)
    (h3 : 128 ≤ b3) (h3' : b3 < 192)
    (hmin : 65536 ≤ (b - 240) * 262144 + (b1 - 128) * 4096 + (b2 - 128) * 64 + (b3 - 128)) :
    utf8EncodeChar ((b - 240) * 262144 + (b1 - 128) * 4096 + (b2 - 128) * 64 + (b3 - 128))
      = [b, b1, b2, b3] := by
  unfold utf8EncodeChar
  rw [if_neg (by omega), if_neg (by omega), if_neg (by omega)]
  have e1 : ((b - 240) * 262144 + (b1 - 128) * 4096 + (b2 - 128) * 64 + (b3 - 128)) / 262144
      = b - 240 := by omega
  have e2 : ((b - 240) * 262144 + (b1 - 128) * 4096 + (b2 - 128) * 64 + (b3 - 128)) / 4096 % 64
      = b1 - 128 := by omega
  have e3 : ((b - 240) * 262144 + (b1 - 128) * 4096 + (b2 - 128) * 64 + (b3 - 128)) / 64 % 64
      = b2 - 128 := by omega
  have e4 : ((b - 240) * 262144 + (b1 - 128) * 4096 + (b2 - 128) * 64 + (b3 - 128)) % 64
      = b3 - 128 := by omega
  rw [e1, e2, e3, e4]
  simp only [List.cons.injEq, and_true]
  exact ⟨by omega, by omega, by omega, by omega⟩

/-- Soundness of the single-codepoint decoder: re-encoding the decoded
codepoint reproduces exactly the consumed bytes, and at least one byte is
consumed. -/
theorem utf8Step_spec :
    ∀ l c r, utf8Step l = some (c, r) → utf8EncodeChar c ++ r = l ∧ r.length < l.length := by
  intro l c r h
  match l with
  | [] => exact absurd h (by simp [utf8Step])
  | b :: rest =>
    simp only [utf8Step] at h
    repeat' split at h
    any_goals exact Option.noConfusion h
    all_goals injection h with h
    all_goals injection h with h1 h2
    all_goals subst h1
    all_goals subst h2
    · refine ⟨?_, by simp only [List.length_cons]; omega⟩
      rename_i hb
      simp only [utf8EncodeChar, if_pos hb]
      rfl
    · refine ⟨?_, by simp only [List.length_cons]; omega⟩
      rename_i hcont
      simp only [isCont, Bool.and_eq_true, decide_eq_true_eq] at hcont
      rw [encodeChar_two _ _ (by omega) (by omega) hcont.1 hcont.2]
      rfl
    · refine ⟨?_, by simp only [List.length_cons]; omega⟩
      rename_i hcont hover hsur
      simp only [isCont, Bool.and_eq_true, decide_eq_true_eq] at hcont
      rw [encodeChar_three _ _ _ (by omega) (by omega) hcont.1.1 hcont.1.2 hcont.2.1 hcont.2.2
        (by omega)]
      rfl
    · refine ⟨?_, by simp only [List.length_cons]; omega⟩
      rename_i hcont hover hrange
      simp only [isCont, Bool.and_eq_true, decide_eq_true_eq] at hcont
      rw [encodeChar_four _ _ _ _ (by omega) (by omega) hcont.1.1.1 hcont.1.1.2 hcont.1.2.1
        hcont.1.2.2 hcont.2.1 hcont.2.2 (by omega)]
      rfl

/-- Any fuel of at least the list's length gives the same decoding result,
so `utf8Decode`'s choice of fuel is canonical. -/
theorem utf8DecodeFuel_fuel_irrel :
    ∀ (n : Nat) (l : List Nat) (m : Nat), l.length ≤ n → l.length ≤ m →
      utf8DecodeFuel n l = utf8DecodeFuel m l := by
  intro n
  induction n with
  | zero =>
    intro l m hn _
    have : l = [] := List.length_eq_zero.mp (Nat.le_zero.mp hn)
    subst this
    cases m <;> rfl
  | succ n ih =>
    intro l m hn hm
    match l with
    | [] => cases m <;> rfl
    | b :: rest =>
      match m with
      | 0 => exact absurd hm (by simp)
      | m + 1 =>
        simp only [utf8DecodeFuel]
        cases hs : utf8Step (b :: rest) with
        | none => rfl
        | some p =>
          obtain ⟨c, r⟩ := p
          have hr := (utf8Step_spec _ _ _ hs).2
          simp only [List.length_cons] at hr hn hm
          dsimp only
          rw [ih r m (by omega) (by omega)]

theorem utf8Encode_utf8DecodeFuel :
    ∀ (n : Nat) (l s : List Nat), utf8DecodeFuel n l = some s → utf8Encode s = l := by
  intro n
  induction n with
  | zero =>
    intro l s h
    match l with
    | [] =>
      simp only [utf8DecodeFuel, Option.some.injEq] at h
      subst h
      rfl
    | b :: rest => exact Option.noConfusion h
  | succ n ih =>
    intro l s h
    match l with
    | [] =>
      simp only [utf8DecodeFuel, Option.some.injEq] at h
      subst h
      rfl
    | b :: rest =>
      simp only [utf8DecodeFuel] at h
      cases hs : utf8Step (b :: rest) with
      | none => rw [hs] at h; exact Option.noConfusion h
      | some p =>
        obtain ⟨c, r⟩ := p
        rw [hs, Option.map_eq_some'] at h
        obtain ⟨a, ha, rfl⟩ := h
        simp only [utf8Encode, ih r a ha]
        exact (utf8Step_spec _ _ _ hs).1

/-- Round trip: `P.decode('utf-8').encode() == P` whenever the decode
succeeds. -/
theorem utf8Encode_utf8Decode :
    ∀ (l s : List Nat), utf8Decode l = some s → utf8Encode s = l := by
  intro l s h
  exact utf8Encode_utf8DecodeFuel l.length l s h

theorem utf8Encode_append :
    ∀ u v : List Nat, utf8Encode (u ++ v) = utf8Encode u ++ utf8Encode v := by
  intro u v
  induction u with
  | nil => rfl
  | cons c t ih => simp [utf8Encode, ih, List.append_assoc]

theorem zero_mem_utf8Encode : ∀ s : List Nat, 0 ∈ s → 0 ∈ utf8Encode s := by
  intro s h
  induction s with
  | nil => cases h
  | cons c t ih =>
    rw [List.mem_cons] at h
    rcases h with h | h
    · subst h
      simp [utf8Encode, utf8EncodeChar]
    · simp only [utf8Encode, List.mem_append]
      exact Or.inr (ih h)

theorem stripNull_eq_self : ∀ s : List Nat, 0 ∉ s → stripNull s = s := by
  intro s h
  induction s with
  | nil => rfl
  | cons c t ih =>
    simp only [List.mem_cons, not_or] at h
    have hcne : ¬c = 0 := fun e => h.1 e.symm
    simp only [stripNull, if_neg hcne]
    rw [ih h.2]


theorem hasSlashZero_cons :
    ∀ (x : Nat) (l : List Nat), hasSlashZero l = true → hasSlashZero (x :: l) = true := by
  intro x l h
  match l with
  | [] => exact absurd h (by simp [hasSlashZero])
  | y :: t => simp [hasSlashZero, h]

theorem hasSlashZero_append :
    ∀ (u v : List Nat), hasSlashZero (u ++ 47 :: 48 :: v) = true := by
  intro u v
  induction u with
  | nil => simp [hasSlashZero]
  | cons x t ih => exact hasSlashZero_cons x _ ih

theorem hasSlashZero_exists :
    ∀ s : List Nat, hasSlashZero s = true → ∃ u v, s = u ++ 47 :: 48 :: v := by
  intro s
  induction s using hasSlashZero.induct with
  | case1 => intro h; exact absurd h (by simp [hasSlashZero])
  | case2 c => intro h; exact absurd h (by simp [hasSlashZero])
  | case3 c d s ih =>
    intro h
    simp only [hasSlashZero, Bool.or_eq_true, Bool.and_eq_true, decide_eq_true_eq] at h
    rcases h with ⟨rfl, rfl⟩ | h
    · exact ⟨[], s, rfl⟩
    · obtain ⟨u, v, huv⟩ := ih h
      exact ⟨c :: u, v, by rw [List.cons_append, ← huv]⟩

theorem stripSlashZero_eq_self :
    ∀ s : List Nat, hasSlashZero s = false → stripSlashZero s = s := by
  intro s
  induction s using stripSlashZero.induct with
  | case1 => intro h; rfl
  | case2 c => intro h; rfl
  | case3 c d s hcd ih =>
    intro h
    obtain ⟨rfl, rfl⟩ := hcd
    simp [hasSlashZero] at h
  | case4 c d s hcd ih =>
    intro h
    simp only [hasSlashZero, Bool.or_eq_false_iff] at h
    simp only [stripSlashZero, if_neg hcd]
    rw [ih h.2]

/-- Transport of the NUL condition along decoding: if the bytes contain no
zero byte, the decoded text contains no NUL codepoint. -/
theorem decode_no_zero (P s : List Nat) (hdec : utf8Decode P = some s) (hP : 0 ∉ P) :
    0 ∉ s := by
  intro hs
  exact hP (by rw [← utf8Encode_utf8Decode P s hdec]; exact zero_mem_utf8Encode s hs)

/-- Transport of the `/0` condition along decoding: if the bytes contain no
47-48 pair, neither does the decoded text. -/
theorem decode_no_slashZero (P s : List Nat) (hdec : utf8Decode P = some s)
    (hP : hasSlashZero P = false) : hasSlashZero s = false := by
  by_contra hs
  rw [Bool.not_eq_false] at hs
  obtain ⟨u, v, rfl⟩ := hasSlashZero_exists s hs
  have henc := utf8Encode_utf8Decode P _ hdec
  rw [utf8Encode_append] at henc
  have h2 : utf8Encode (47 :: 48 :: v) = 47 :: 48 :: utf8Encode v := by
    simp [utf8Encode, utf8EncodeChar]
  rw [h2] at henc
  rw [← henc, hasSlashZero_append] at hP
  exact Bool.noConfusion hP

theorem reconnectLoop_first_success (n : Nat) :
    reconnectLoop (List.replicate n false ++ [true])
      = ((List.replicate n attemptEvents).flatten
          ++ (attemptEvents ++ [.sendSerial bridgeConnectedFrame]), true) := by
  induction n with
  | zero => rfl
  | succ n ih =>
    simp only [List.replicate_succ, List.cons_append, reconnectLoop, List.append_eq,
      Bool.false_eq_true, if_false, ih, List.flatten_cons, List.append_assoc]

theorem reconnectLoop_all_fail (n : Nat) :
    reconnectLoop (List.replicate n false) = ((List.replicate n attemptEvents).flatten, false) := by
  induction n with
  | zero => rfl
  | succ n ih =>
    simp only [List.replicate_succ, reconnectLoop, List.append_eq, Bool.false_eq_true, if_false,
      ih, List.flatten_cons]

/-- Claim C1 (amended): for every payload byte sequence that contains neither
the NUL delimiter byte nor the two-byte ASCII sequence 47-48 (the text /0,
which line 183 also strips), the serial read loop forwards exactly those
bytes to the socket peer's write, with no mutation; in particular serial
input hello-NUL results in exactly the bytes of hello reaching
`socket.send`. -/
theorem serial_relay_exact :
    (∀ (st : BridgeState) (P s : List Nat), utf8Decode P = some s → 0 ∉ P →
      hasSlashZero P = false → P ≠ [] → st.socketHandle = true →
      serialLoopData st P = ({ st with socketWrites := st.socketWrites ++ [P] }, .next)) ∧
    serialLoopData stInit [104, 101, 108, 108, 111, 0]
      = ({ stInit with socketWrites := [[104, 101, 108, 108, 111]] }, .next) := by
  constructor
  · intro st P s hdec h0 hsz hne hh
    have hs0 : 0 ∉ s := decode_no_zero P s hdec h0
    have hsz' : hasSlashZero s = false := decode_no_slashZero P s hdec hsz
    have htr : stripNull (stripSlashZero s) = s := by
      rw [stripSlashZero_eq_self s hsz', stripNull_eq_self s hs0]
    have henc : utf8Encode s = P := utf8Encode_utf8Decode P s hdec
    unfold serialLoopData
    rw [if_neg hne, hdec]
    dsimp only
    rw [htr, henc]
    unfold socketWrite
    rw [if_pos hh]
  · decide

/-- Claim C1 counterexample: the payload with bytes 97, 47, 48, 98 (the text
a/0b) contains no NUL byte, yet the serial loop forwards only 97, 98 - the
replace of /0 at line 183 mutates the payload. -/
theorem serial_relay_slashZero_counterexample :
    (0 : Nat) ∉ [97, 47, 48, 98] ∧
    serialLoopData stInit [97, 47, 48, 98]
      = ({ stInit with socketWrites := [[97, 98]] }, .next) ∧
    [97, 98] ≠ [97, 47, 48, 98] := by
  exact ⟨by decide, by decide, by decide⟩

theorem serial_relay_exact_witness :
    serialLoopData stInit [104, 101, 108, 108, 111]
      = ({ stInit with socketWrites := [[104, 101, 108, 108, 111]] }, .next) :=
  serial_relay_exact.1 stInit [104, 101, 108, 108, 111] [104, 101, 108, 108, 111]
    (by decide) (by decide) (by decide) (by decide) rfl

/-- Claim C2 (amended): a second stop() produces no error on either channel
and `SerialThread.stop` is idempotent, but `SocketThread.stop` sends the
internetDisconnected frame on every call while the serial peer's alive flag
is set, so a second call emits a duplicate notification frame. -/
theorem stop_second_call_behavior :
    (∀ st : BridgeState, serialStop (serialStop st) = serialStop st) ∧
    (∀ st : BridgeState, (socketStop false st).2 = none) ∧
    (∀ st : BridgeState, st.serialAlive = true →
      (socketStop false (socketStop false st).1).1.serialWrites
        = st.serialWrites ++ [internetDisconnectedFrame, internetDisconnectedFrame]) := by
  refine ⟨fun st => rfl, fun st => rfl, ?_⟩
  intro st hal
  simp [socketStop, serialWrite, hal]

/-- Claim C2 counterexample: two successive external SocketThread.stop calls
from the freshly started state leave two internetDisconnected frames on the
serial medium, not one. -/
theorem socketStop_double_frame :
    (socketStop false (socketStop false stInit).1).1.serialWrites
      = [internetDisconnectedFrame, internetDisconnectedFrame] ∧
    [internetDisconnectedFrame, internetDisconnectedFrame] ≠ [internetDisconnectedFrame] := by
  exact ⟨by decide, by decide⟩

theorem stop_second_call_behavior_witness :
    (socketStop false (socketStop false stInit).1).1.serialWrites
      = [internetDisconnectedFrame, internetDisconnectedFrame] := by
  have h := stop_second_call_behavior.2.2 stInit rfl
  simpa using h

/-- Claim C3 (amended): when the socket read loop receives non-empty bytes
while the serial peer is alive, every decoded value - including the literal
DISCONNECT - is first forwarded verbatim to the serial peer's write;
DISCONNECT additionally clears the alive flag so the loop exits at the next
guard check, without any internetDisconnected frame. -/
theorem socket_forward_and_disconnect :
    (∀ (st : BridgeState) (bs s : List Nat), utf8Decode bs = some s → bs ≠ [] →
      st.serialAlive = true →
      socketLoopIter st (.bytes bs)
        = ({ st with serialWrites := st.serialWrites ++ [bs],
                     socketAlive := if s = disconnectCodes then false
                                    else st.socketAlive }, .next)) ∧
    socketLoopGuard ((socketLoopIter stInit (.bytes disconnectCodes)).1) = false ∧
    (socketLoopIter stInit (.bytes disconnectCodes)).1.serialWrites ≠ []
      := by
  refine ⟨?_, by decide, by decide⟩
  intro st bs s hdec hne hal
  have henc : utf8Encode s = bs := utf8Encode_utf8Decode bs s hdec
  unfold socketLoopIter
  dsimp only
  rw [if_neg hne, hdec]
  dsimp only
  unfold serialWrite
  simp only [hal, if_true, henc]
  by_cases hd : s = disconnectCodes
  · simp only [if_pos hd]
  · simp only [if_neg hd]

/-- Claim C3 counterexample: on receiving the bytes of DISCONNECT with the
serial peer alive, the loop forwards that value to the serial peer's write
(the claim says it is not forwarded). -/
theorem disconnect_forwarded_counterexample :
    (socketLoopIter stInit (.bytes disconnectCodes)).1.serialWrites = [disconnectCodes] ∧
    ([disconnectCodes] : List (List Nat)) ≠ [] := by
  exact ⟨by decide, by decide⟩

theorem socket_forward_and_disconnect_witness :
    socketLoopIter stInit (.bytes [119, 111, 114, 108, 100])
      = ({ stInit with serialWrites := [[119, 111, 114, 108, 100]] }, .next) :=
  socket_forward_and_disconnect.1 stInit [119, 111, 114, 108, 100] [119, 111, 114, 108, 100]
    (by decide) (by decide) rfl

/-- Claim C4 (amended): neither channel's write consults the alive flag and
no ChannelClosed failure exists: `SocketThread.write` sends under the lock
whenever the socket object exists (raising AttributeError when it is still
None) and `SerialThread.write` always writes under the lock, both returning
the byte count written, regardless of the alive flags. -/
theorem write_no_alive_check :
    (∀ (st : BridgeState) (data : List Nat), st.socketHandle = true →
      socketWrite st data
        = ({ st with socketWrites := st.socketWrites ++ [data] }, .ok data.length)) ∧
    (∀ (st : BridgeState) (data : List Nat), st.socketHandle = false →
      socketWrite st data = (st, .error .noneHasNoSend)) ∧
    (∀ (st : BridgeState) (data : List Nat),
      serialWrite st data
        = ({ st with serialWrites := st.serialWrites ++ [data] }, data.length)) := by
  refine ⟨?_, ?_, fun st data => rfl⟩
  · intro st data hh
    simp [socketWrite, hh]
  · intro st data hh
    simp [socketWrite, hh]

/-- Claim C4 counterexample: with the alive flag false (and the socket
created), write succeeds, touches the medium and returns a byte count
instead of failing fast with a ChannelClosed error. -/
theorem write_ignores_alive_counterexample :
    ({ stInit with socketAlive := false } : BridgeState).socketAlive = false ∧
    socketWrite { stInit with socketAlive := false } [100]
      = ({ stInit with socketAlive := false, socketWrites := [[100]] }, .ok 1) ∧
    ({ stInit with socketAlive := false, socketWrites := [[100]] } : BridgeState)
      ≠ { stInit with socketAlive := false } := by
  exact ⟨rfl, rfl, by decide⟩

theorem write_no_alive_check_witness :
    socketWrite { stInit with socketAlive := false } [7]
      = ({ stInit with socketAlive := false, socketWrites := [[7]] }, .ok 1) :=
  write_no_alive_check.1 { stInit with socketAlive := false } [7] rfl

/-- Claim C5 (code bug): an empty read does reach stop() exactly once and
exactly one internetDisconnected frame is written to the serial side, but
stop()'s `self.join()` runs on the thread's own loop and raises
RuntimeError, so the loop terminates by an uncaught exception rather than
cleanly. -/
theorem empty_read_stop_raises :
    socketLoopIter stInit (.bytes [])
      = ({ stInit with socketAlive := false, socketClosed := true,
                       serialWrites := [internetDisconnectedFrame] },
         .raised .joinCurrentThread) := by
  decide

/-- Claim C6 (code bug): a non-UTF-8 byte kills either read loop - the
decode at lines 101 and 183 sits outside the try/except, so the
UnicodeDecodeError is uncaught, the data is not merely dropped, and the
loop does not continue. -/
theorem decode_failure_fatal :
    serialLoopData stInit [255] = (stInit, .raised .unicodeDecodeError) ∧
    socketLoopIter stInit (.bytes [255]) = (stInit, .raised .unicodeDecodeError) ∧
    (IterOutcome.raised .unicodeDecodeError) ≠ .next := by
  exact ⟨by decide, by decide, by decide⟩

/-- Claim C7: on a serial read failure with reconnect enabled the channel
retries without bound - each pass sleeps one time-unit, re-runs port
discovery, reopens the medium - and on the first successful pass writes the
bridgeConnected frame before the read loop resumes; all-failing passes
leave it retrying.  With reconnect disabled the failure clears the alive
flag and the read-loop guard fails. -/
theorem serial_reconnect_behavior :
    (∀ (st : BridgeState) (attempts : List Bool),
      serialHandleError false attempts st = ({ st with serialAlive := false }, [], false) ∧
      serialLoopGuard { st with serialAlive := false } = false) ∧
    (∀ n : Nat, reconnectLoop (List.replicate n false ++ [true])
      = ((List.replicate n attemptEvents).flatten
          ++ (attemptEvents ++ [.sendSerial bridgeConnectedFrame]), true)) ∧
    (∀ n : Nat, (reconnectLoop (List.replicate n false)).2 = false) ∧
    (∀ (st : BridgeState) (n : Nat),
      serialHandleError true (List.replicate n false ++ [true]) st
        = ({ st with serialOpen := true,
                     serialWrites := st.serialWrites ++ [bridgeConnectedFrame] },
           (List.replicate n attemptEvents).flatten
             ++ (attemptEvents ++ [.sendSerial bridgeConnectedFrame]), true)) := by
  refine ⟨fun st attempts => ⟨rfl, rfl⟩, reconnectLoop_first_success, ?_, ?_⟩
  · intro n
    rw [reconnectLoop_all_fail]
  · intro st n
    unfold serialHandleError
    rw [if_pos rfl, reconnectLoop_first_success]
    rfl

/-- Claim C8 (amended): every recv in the socket read loop runs under the
10-time-unit timeout installed once at line 78 (it is never re-set to 0.1),
and a timeout with no data is not an error - the loop simply retries. -/
theorem recv_timeout_and_retry :
    socketRecvTimeout = 10 ∧ ∀ st : BridgeState, socketLoopIter st .timeout = (st, .next) :=
  ⟨rfl, fun _ => rfl⟩

/-- Claim C8 counterexample: the poll timeout in effect at every recv is 10
time-units, not 0.1. -/
theorem recv_timeout_not_tenth : socketRecvTimeout ≠ 1 / 10 := by
  norm_num [socketRecvTimeout]

theorem startStep_publish_mono (s t : StartState) (hst : StartStep s t)
    (h : s.peerPublished = true) : t.peerPublished = true := by
  cases hst with
  | publish hp => rfl
  | spin hp hq => exact h
  | exitWait hp hq => exact h
  | finishSetup hp => exact h
  | doHandshake hp => exact h

theorem startStep_inv (s t : StartState) (hst : StartStep s t)
    (h : s.pc ≠ .waitPeer → s.peerPublished = true) :
    t.pc ≠ .waitPeer → t.peerPublished = true := by
  cases hst with
  | publish hp => intro _; rfl
  | spin hp hq => exact h
  | exitWait hp hq => intro _; exact hq
  | finishSetup hp => intro _; exact h (by rw [hp]; intro hc; exact SockPC.noConfusion hc)
  | doHandshake hp => intro _; exact h (by rw [hp]; intro hc; exact SockPC.noConfusion hc)

theorem startReach_inv (s t : StartState) (hreach : StartReach s t)
    (hs : s.pc = .waitPeer) : t.pc ≠ .waitPeer → t.peerPublished = true := by
  induction hreach with
  | refl => intro hne; exact absurd hs hne
  | tail hr hst ih => exact startStep_inv _ _ hst ih

/-- Claim C9: under any interleaving of the main thread's publication of the
peer reference with the socket thread's startup steps, the step that
performs the socket thread's first write to the serial channel can only
fire from a state where the peer reference is already published - the busy
wait of lines 72-73 guards every later step. -/
theorem socket_first_write_after_publish :
    ∀ s0 s t : StartState, startInit s0 → StartReach s0 s → StartStep s t →
      s.handshakeSent = false → t.handshakeSent = true →
      s.peerPublished = true := by
  intro s0 s t h0 hreach hst hs ht
  cases hst with
  | publish hp => rw [hs] at ht; exact Bool.noConfusion ht
  | spin hp hq => rw [hs] at ht; exact Bool.noConfusion ht
  | exitWait hp hq => rw [hs] at ht; exact Bool.noConfusion ht
  | finishSetup hp => rw [hs] at ht; exact Bool.noConfusion ht
  | doHandshake hp =>
    exact startReach_inv s0 s hreach h0.1 (by rw [hp]; intro hc; exact SockPC.noConfusion hc)

theorem socket_first_write_after_publish_witness :
    (⟨.handshake, true, false⟩ : StartState).peerPublished = true := by
  refine socket_first_write_after_publish ⟨.waitPeer, false, false⟩ ⟨.handshake, true, false⟩
    ⟨.inLoop, true, true⟩ ⟨rfl, rfl⟩ ?_ ?_ rfl rfl
  · exact .tail (.tail (.tail (.refl _) (.publish ⟨.waitPeer, false, false⟩ rfl))
      (.exitWait ⟨.waitPeer, true, false⟩ rfl rfl)) (.finishSetup ⟨.setup, true, false⟩ rfl)
  · exact .doHandshake ⟨.handshake, true, false⟩ rfl

/-- Claim C10: on non-empty decodable data the serial read loop calls the
socket peer's write unconditionally - no alive check, no handle check (the
state, including the peer's alive flag, is universally quantified): if the
TCP socket has not been created yet the write dereferences the None socket
attribute and the serial read loop terminates with an uncaught
AttributeError; if the handle exists the bytes land in socket.send
regardless of the peer's alive flag. -/
theorem serial_forward_unconditional :
    ∀ (st : BridgeState) (data s : List Nat), data ≠ [] → utf8Decode data = some s →
      ((st.socketHandle = false →
        serialLoopData st data = (st, .raised .noneHasNoSend)) ∧
       (st.socketHandle = true →
        (serialLoopData st data).1.socketWrites
          = st.socketWrites ++ [utf8Encode (stripNull (stripSlashZero s))])) := by
  intro st data s hne hdec
  constructor
  · intro hh
    unfold serialLoopData
    rw [if_neg hne, hdec]
    dsimp only
    unfold socketWrite
    rw [if_neg (by simp [hh])]
  · intro hh
    unfold serialLoopData
    rw [if_neg hne, hdec]
    dsimp only
    unfold socketWrite
    rw [if_pos hh]

theorem serial_forward_unconditional_witness :
    serialLoopData stNoSocket [104] = (stNoSocket, .raised .noneHasNoSend) :=
  (serial_forward_unconditional stNoSocket [104] [104] (by decide) (by decide)).1 rfl

end TinetBridge
